import Mathlib

/-!
Verification of the activity-bus engine (TypeScript sources under src/).

Two shallow embeddings are developed, mirroring how the source is split:

* `AS` — the JSON-like document model (`model.ts`) and the structural rule
  matcher (`rules` part of `builtins.ts`): `chain`/`gather` flattening over
  JavaScript-like values, the recursive `match` test (with JavaScript
  `TypeError` on property access on `undefined`/`null` modelled as an
  `Except` error), and `chainRules` over the registered rule list.

* `Bus` — the typed activity pipeline (`process`/`terminate`, the builtin
  handlers `create_objects`, `delete_objects`, the marker handlers, and the
  in-memory storage layer `canWrite`/`storeObjects`/`dereference`).

JavaScript values are modelled by the inductive `AS.JVal` (numbers as `Int`
tokens — equality is the only operation the matcher performs on them;
property access on primitive values yields `undefined`, as it does in JS
for all keys the rule engine uses).  Time (`new Date().toISOString()`) and
the random token of `Math.random().toString(36).slice(2)` are passed in as
explicit parameters, so all functions are pure and executable.
-/

namespace AS

/-- JavaScript-like values as manipulated by `model.ts` and the matcher. -/
inductive JVal where
  | undefined : JVal
  | null : JVal
  | bool (b : Bool) : JVal
  | num (n : Int) : JVal
  | str (s : String) : JVal
  | arr (xs : List JVal) : JVal
  | obj (fs : List (String × JVal)) : JVal

mutual

/-- Source `chain(...)` from `model.ts`, restricted to a single argument: depth-first
left-to-right flattening of nested arrays, dropping `undefined`, yielding any
other value as a singleton. -/
def chainJ : JVal → List JVal
  | .arr xs => chainList xs
  | .undefined => []
  | v => [v]

/-- Source `chain` applied to the elements of an array argument in order. -/
def chainList : List JVal → List JVal
  | [] => []
  | x :: xs => chainJ x ++ chainList xs

end

/-- Source `gather(...args)` from `model.ts`: `Array.from(chain(...args))`. -/
def gather (args : List JVal) : List JVal := chainList args

/-- Value of a field of an object-literal list, `undefined` when absent
(first binding wins, like the single lookup the matcher performs per key). -/
def lookupField (fs : List (String × JVal)) (k : String) : JVal :=
  match fs.find? (fun p => p.1 == k) with
  | some p => p.2
  | none => .undefined

/-- Does the object-literal list have the key at all? -/
def hasKey (fs : List (String × JVal)) (k : String) : Bool :=
  fs.any (fun p => p.1 == k)

/-- JavaScript property read `value[key]` as performed by `matchObjects`:
reading a property of `undefined` or `null` throws a `TypeError`; reading a
missing key of an object yields `undefined`; property reads on primitives
and arrays yield `undefined` for the keys the rule engine uses. -/
def jGet : JVal → String → Except String JVal
  | .undefined, _ => .error "TypeError"
  | .null, _ => .error "TypeError"
  | .obj fs, k => .ok (lookupField fs k)
  | _, _ => .ok .undefined

/-- Total variant of `jGet` used to state characterisations: the value the
lookup would produce when it does not throw. -/
def jGetD : JVal → String → JVal
  | .obj fs, k => lookupField fs k
  | _, _ => .undefined

/-- JavaScript strict equality `===` as reached by the scalar branch of
`match` (the branch is only reached when the rule value is neither an array
nor a JavaScript object, so reference equality of objects never arises). -/
def scalarEq : JVal → JVal → Bool
  | .undefined, .undefined => true
  | .bool a, .bool b => a == b
  | .num a, .num b => a == b
  | .str a, .str b => a == b
  | _, _ => false

/-- Is the value in the scalar branch of `match` (not an array, not of
a JavaScript object)? -/
def isScalar : JVal → Bool
  | .undefined => true
  | .bool _ => true
  | .num _ => true
  | .str _ => true
  | _ => false

mutual

/-- Source `match(ruleValue, activityValue)` from the rules engine in `builtins.ts`:
arrays go to `matchLists` (existential over the chained lists), objects and
`null` go to `matchObjects` (every key must match; `for key in null` iterates
nothing, so `null` matches everything), anything else is `===`. -/
def jmatch : JVal → JVal → Except String Bool
  | .arr rs, av => anyPair rs (chainJ av)
  | .obj fs, av => allFields fs av
  | .null, _ => .ok true
  | rv, av => .ok (scalarEq rv av)
termination_by rv _av => (sizeOf rv, 0, 0)
decreasing_by all_goals decreasing_tactic

/-- Outer loop of `matchLists`: iterate `chain(ruleValue)` in depth-first
order.  The flattening of nested rule arrays is realised by recursing into
array elements (`oneTemplate`); `ais` is the already-chained activity list. -/
def anyPair : List JVal → List JVal → Except String Bool
  | [], _ => .ok false
  | r :: rest, ais =>
    match oneTemplate r ais with
    | .error e => .error e
    | .ok true => .ok true
    | .ok false => anyPair rest ais
termination_by rs _ais => (sizeOf rs, 3, 0)
decreasing_by all_goals decreasing_tactic

/-- Handle one element of the rule list: nested arrays are flattened in
place, `undefined` elements are dropped by `chain`, anything else is tried
against every chained activity item in order. -/
def oneTemplate : JVal → List JVal → Except String Bool
  | .arr rs, ais => anyPair rs ais
  | .undefined, _ => .ok false
  | r, ais => anyAct r ais
termination_by r _ais => (sizeOf r, 2, 0)
decreasing_by all_goals decreasing_tactic

/-- Inner loop of `matchLists`: try one rule item against each activity item
in order, short-circuiting on the first match, propagating the first throw. -/
def anyAct : JVal → List JVal → Except String Bool
  | _, [] => .ok false
  | r, ai :: rest =>
    match jmatch r ai with
    | .error e => .error e
    | .ok true => .ok true
    | .ok false => anyAct r rest
termination_by r ais => (sizeOf r, 1, ais.length)
decreasing_by all_goals decreasing_tactic

/-- Source `matchObjects(ruleTarget, activityTarget)`: every key of the rule object
must recursively match the value of the activity at that key; the property read
happens first and can throw. -/
def allFields : List (String × JVal) → JVal → Except String Bool
  | [], _ => .ok true
  | (k, v) :: rest, av =>
    match jGet av k with
    | .error e => .error e
    | .ok avk =>
      match jmatch v avk with
      | .error e => .error e
      | .ok true => allFields rest av
      | .ok false => .ok false
termination_by fs _av => (sizeOf fs, 1, 0)
decreasing_by all_goals decreasing_tactic

end

/-! The rule registry: `rule` and `chainRules` in the rules part of `builtins.ts`. -/

/-- A registered rule: `interface Rule extends ASObject` with an optional
`target` list of match templates.  `ASObject` is an open map, so a rule may
carry an `id`, a `priority` or a `summary` field; `chainRules` reads none of
them — it only looks at `target`. -/
structure RuleR where
  id : Option String := none
  priority : Option Int := none
  summary : Option String := none
  target : Option (List JVal) := none

/-- JavaScript `Array.prototype.some` over the `target` templates of a rule:
short-circuits at the first match, and a `TypeError` thrown by `match`
propagates. -/
def someTargets : List JVal → JVal → Except String Bool
  | [], _ => .ok false
  | t :: ts, a =>
    match jmatch t a with
    | .error e => .error e
    | .ok true => .ok true
    | .ok false => someTargets ts a

/-- Does a rule apply to an activity?  `chainRules` yields a rule when it has
no `target` (a catch-all) or when some target template matches. -/
def ruleMatches (r : RuleR) (a : JVal) : Except String Bool :=
  match r.target with
  | none => .ok true
  | some ts => someTargets ts a

/-- Source `chainRules(activity)`: iterate the registered rule list in order,
yielding each rule whose targets match (or that has no target).  The list of
yielded rules is returned; a throw inside `match` propagates. -/
def chainRules : List RuleR → JVal → Except String (List RuleR)
  | [], _ => .ok []
  | r :: rs, a =>
    match ruleMatches r a with
    | .error e => .error e
    | .ok b =>
      match chainRules rs a with
      | .error e => .error e
      | .ok l => .ok (if b then r :: l else l)

/-- Comparison key the specification demands for dispatch order: priority
ascending, then identifier.  (The `Rule` records of the source carry no such
ordering; this definition follows the words of the claim and is used to compare
the claimed order with the actual one.) -/
def specLE (a b : RuleR) : Bool :=
  let pa := a.priority.getD 0
  let pb := b.priority.getD 0
  if pa = pb then a.id.getD "" ≤ b.id.getD "" else pa ≤ pb

/-- Is a rule list ordered by priority ascending with identifier tie-break,
as the specification describes the dispatch order? -/
def orderedBySpec : List RuleR → Bool
  | [] => true
  | [_] => true
  | a :: b :: rest => specLE a b && orderedBySpec (b :: rest)

end AS

namespace Bus

mutual

/-- An `ASNode` as the pipeline sees it: a bare URI string, an object, or a
`ProcessingError` instance (which `terminate` appends to `result`; its only
field is `summary`). -/
inductive Node where
  | str (s : String) : Node
  | obj (o : Obj) : Node
  | perr (summary : List String) : Node

/-- An `ASObject` restricted to the fields the builtin handlers touch:
`id`, `type`, `attributedTo`, `formerType`, `deleted`, `content`. -/
inductive Obj where
  | mk (id : Option String) (type : Option (List String))
      (attributedTo : Option (List Node)) (formerType : Option (List String))
      (deleted : Option String) (content : Option (List String)) : Obj

end

def Obj.id : Obj → Option String
  | .mk i _ _ _ _ _ => i

def Obj.type : Obj → Option (List String)
  | .mk _ t _ _ _ _ => t

def Obj.attributedTo : Obj → Option (List Node)
  | .mk _ _ a _ _ _ => a

def Obj.formerType : Obj → Option (List String)
  | .mk _ _ _ f _ _ => f

def Obj.deleted : Obj → Option String
  | .mk _ _ _ _ d _ => d

def Obj.content : Obj → Option (List String)
  | .mk _ _ _ _ _ c => c

/-- Source `expand(string)` from `model.ts` produces `\x7b id: string \x7d`. -/
def Obj.onlyId (s : String) : Obj := .mk (some s) none none none none none

/-- Overwrite the `attributedTo` field (the attribution the `create` handler performs). -/
def Obj.withAttributedTo : Obj → Option (List Node) → Obj
  | .mk i t _ f d c, a => .mk i t a f d c

/-- The Tombstone conversion `delete_objects` performs on a stored object:
`formerType` becomes the prior `type`, `type` becomes `["Tombstone"]`,
`deleted` is stamped with the current time. -/
def Obj.toTombstone (now : String) : Obj → Obj
  | .mk i t a _ _ c => .mk i (some ["Tombstone"]) a t (some now) c

/-- An `Activity` restricted to the fields `process` and the handlers touch.
`formerType` is never written by any activity code path (the `Tombstone`
interface declares it, but `terminate` writes `originalType` instead);
`published` is only used by the spec-modelled `submit`. -/
structure Act where
  id : Option String := none
  type : Option (List String) := none
  actor : Option (List Node) := none
  object : Option (List Node) := none
  target : Option (List Node) := none
  result : Option (List Node) := none
  processed : Option String := none
  published : Option String := none
  originalType : Option (List String) := none
  formerType : Option (List String) := none
  deleted : Option String := none

/-- The in-memory storage: a journal of `memory.set` calls; lookup returns
the most recent binding, as a JavaScript `Map` would. -/
def Store := List (String × Obj)

def lookupStore (s : Store) (k : String) : Option Obj :=
  match List.find? (fun p => p.1 == k) s with
  | some p => some p.2
  | none => none

/-- Source `memory.set(id, obj)`. -/
def storeSet (k : String) (o : Obj) (s : Store) : Store := (k, o) :: s

/-- Source `canWrite(objectId, userId)` from `storage.ts`:
`objectId.startsWith` of `userId` followed by a slash. -/
def canWrite (objectId userId : String) : Bool :=
  List.isPrefixOf (userId ++ "/").data objectId.data

/-- Source `obj.id` as JavaScript reads it off an arbitrary node: `undefined` for a
string primitive or a `ProcessingError`. -/
def nodeId : Node → Option String
  | .obj o => o.id
  | _ => none

/-- Source `uri(node)` from `model.ts` (the model has no links, so no `href`). -/
def nodeUri : Node → Option String
  | .str s => some s
  | .obj o => o.id
  | .perr _ => none

/-- Source `storeObject(obj)` from `storage.ts`: throws when the object has no id. -/
def storeObjectE (o : Obj) (s : Store) : Except String Store :=
  match o.id with
  | none => .error "object must have an id"
  | some i => .ok (storeSet i o s)

def insertNode (s : Store) (n : Node) : Store :=
  match n with
  | .obj o =>
    match o.id with
    | some i => storeSet i o s
    | none => s
  | _ => s

/-- Source `storeObjects(objects)` from `storage.ts`: first checks every object has
an id (throwing otherwise), then stores them all. -/
def storeObjects (ns : List Node) (s : Store) : Except String Store :=
  if ns.all (fun n => (nodeId n).isSome) then .ok (ns.foldl insertNode s)
  else .error "object must have an id"

/-- Source `dereference(node)` from `storage.ts`: strings are looked up directly,
objects are looked up by their `id` (a missing `id` misses the map). -/
def derefNode (s : Store) : Node → Option Obj
  | .str i => lookupStore s i
  | .obj o => o.id.bind (fun i => lookupStore s i)
  | .perr _ => none

/-- Source `act.type?.includes(t)`. -/
def hasType (a : Act) (t : String) : Bool := (a.type.getD []).contains t

/-- Source `chain` over a typed one-or-many field: the flat node list of the field
(`undefined` contributes nothing). -/
def chainN (o : Option (List Node)) : List Node := o.getD []

/-- Source `gather(obj.type)`. -/
def gatherTypes (o : Option (List String)) : List String := o.getD []

/-- Source `gather(act.result, x)` on the typed flat `result` list. -/
def gatherRes (r : Option (List Node)) : List Node := r.getD []

/-- Result of one handler (or of the whole chain): the activity and store
after all mutations performed up to the return or the throw, plus the thrown
error message if any. -/
abbrev HRes := Act × Store × Option String

/-! Builtin handlers of `builtins.ts`. -/

/-- Inner actor loop of `gatherWriteableObjects`: for each actor, its `id`
must exist and `canWrite(obj.id, actor.id)` must hold; the first violation
is the thrown error. -/
def actorsWriteError (objId : String) : List Node → Option String
  | [] => none
  | n :: rest =>
    match nodeId n with
    | none => some "actor must have an id"
    | some aid =>
      if canWrite objId aid then actorsWriteError objId rest
      else some (aid ++ " cannot write to " ++ objId)

/-- Source `gatherWriteableObjects(objects, actors)` from `builtins.ts`: every
object must have an id, every actor must have an id and write access to
every object; the surviving object nodes are returned in order. -/
def gatherWriteableObjects (actors : List Node) : List Node → Except String (List Node)
  | [] => .ok []
  | n :: rest =>
    match nodeId n with
    | none => .error "object must have an id"
    | some oid =>
      match actorsWriteError oid actors with
      | some e => .error e
      | none =>
        match gatherWriteableObjects actors rest with
        | .error e => .error e
        | .ok l => .ok (n :: l)

/-- Modelled from the spec: the write-check and attribution step of
`create_objects` is corrupted in the source (`ensureObjectsWithURIs` is
nowhere defined and the `Promise.all(objects.map(` call is truncated).  Per
the doc comment of the handler, the spec (`create` "sets `attributedTo` to
actor", requires write access) and the repository tests (which expect the
error `"<actor.id> cannot write to <obj.id>"` and `attributedTo = [actor]`
on the stored object): each object/actor pair is write-checked and each
`attributedTo` field of each object is set to the actor nodes of the activity. -/
def setAttribution (actors : List Node) : Node → Node
  | .obj o => .obj (o.withAttributedTo (some actors))
  | n => n

/-- Modelled from the spec: the per-object half of the corrupted write check
of `create_objects`; first failing object/actor pair wins, errors as in
`gatherWriteableObjects` and the tests. -/
def objectsWriteError (actors : List Node) : List Node → Option String
  | [] => none
  | n :: rest =>
    match nodeUri n with
    | none => some "invalid objects"
    | some oid =>
      match actorsWriteError oid actors with
      | some e => some e
      | none => objectsWriteError actors rest

/-- Source `create_objects(act)`: only fires on `Create`; every object must have a
URI (`invalid objects` otherwise); the actor must be allowed to write each
object; each object is attributed to the actor and stored.  (The middle of
the source function is corrupted; see `setAttribution`.) -/
def create_objects (a : Act) (s : Store) : HRes :=
  if !hasType a "Create" then (a, s, none)
  else
    let objects := chainN a.object
    if !(objects.all (fun n => (nodeUri n).isSome)) then (a, s, some "invalid objects")
    else
      let actors := chainN a.actor
      match objectsWriteError actors objects with
      | some e => (a, s, some e)
      | none =>
        let objects2 := objects.map (setAttribution actors)
        match storeObjects objects2 s with
        | .error e => (a, s, some e)
        | .ok s2 => ({a with object := some objects2}, s2, none)

/-- The per-object loop of `delete_objects`, over the already-dereferenced
objects: each is dereferenced a second time against the current store
(`not found` when absent), skipped when already a Tombstone, otherwise
converted to a Tombstone and stored.  Mutations made before a throw are
kept. -/
def deleteLoop (now : String) : List (Option Obj) → Store → Store × Option String
  | [], s => (s, none)
  | o? :: rest, s =>
    match o?.bind (fun ob => ob.id.bind (fun i => lookupStore s i)) with
    | none => (s, some "not found")
    | some ob =>
      if (gatherTypes ob.type).contains "Tombstone" then deleteLoop now rest s
      else
        match storeObjectE (ob.toTombstone now) s with
        | .error e => (s, some e)
        | .ok s2 => deleteLoop now rest s2

/-- Source `delete_objects(act)`: only fires on `Delete`; the writable objects are
dereferenced and each is turned into a Tombstone, a no-op (`continue`) when
the `type` of the stored object already includes `Tombstone`. -/
def delete_objects (now : String) (a : Act) (s : Store) : HRes :=
  if !hasType a "Delete" then (a, s, none)
  else
    match gatherWriteableObjects (chainN a.actor) (chainN a.object) with
    | .error e => (a, s, some e)
    | .ok objs =>
      match deleteLoop now (objs.map (derefNode s)) s with
      | (s2, none) => (a, s2, none)
      | (s2, some e) => (a, s2, some e)

/-- The common body of the four stub handlers: per object of `act.object`,
`act.result = gather(act.result, "<handler name>")`. -/
def appendMarkers (name : String) (a : Act) : Act :=
  { a with
    result := some (gatherRes a.result ++
      List.replicate (chainN a.object).length (Node.str name)) }

/-- Source `update_objects(act)`: only fires on `Update`; appends its marker to
`result` once per object and performs no other effect. -/
def update_objects (a : Act) (s : Store) : HRes :=
  if !hasType a "Update" then (a, s, none)
  else (appendMarkers "update_objects" a, s, none)

/-- Source `add_to_collection(act)`: only fires on `Add`; appends its marker to
`result` once per object and performs no other effect. -/
def add_to_collection (a : Act) (s : Store) : HRes :=
  if !hasType a "Add" then (a, s, none)
  else (appendMarkers "add_to_collection" a, s, none)

/-- Source `remove_from_collection(act)`: only fires on `Remove`; appends its
marker to `result` once per object and performs no other effect. -/
def remove_from_collection (a : Act) (s : Store) : HRes :=
  if !hasType a "Remove" then (a, s, none)
  else (appendMarkers "remove_from_collection" a, s, none)

/-- Source `move_between_collections(act)`: only fires on `Move`; appends its
marker to `result` once per object and performs no other effect. -/
def move_between_collections (a : Act) (s : Store) : HRes :=
  if !hasType a "Move" then (a, s, none)
  else (appendMarkers "move_between_collections" a, s, none)

/-- Source `move_or_remove_from_canonical_collection(act)`: fires on `Move` or
`Remove`; despite its doc comment ("You cannot move or remove an object from
its canonical collection") it only appends its marker to `result` once per
object — it rejects nothing and never throws. -/
def move_or_remove_from_canonical_collection (a : Act) (s : Store) : HRes :=
  if !hasType a "Move" && !hasType a "Remove" then (a, s, none)
  else (appendMarkers "move_or_remove_from_canonical_collection" a, s, none)

/-! The processing pipeline: `process` and `terminate`. -/

/-- Source `execute(act)` runs the `processors` list in order, stopping at the
first throw; the activity/store mutations already performed are kept. -/
def runHandlers : List (Act → Store → HRes) → Act → Store → HRes
  | [], a, s => (a, s, none)
  | h :: hs, a, s =>
    match h a s with
    | (a2, s2, none) => runHandlers hs a2 s2
    | (a2, s2, some e) => (a2, s2, some e)

/-- The `processors` array of `builtins.ts`, in source order. -/
def builtins (now : String) : List (Act → Store → HRes) :=
  [create_objects, delete_objects now, update_objects, add_to_collection,
   remove_from_collection, move_between_collections,
   move_or_remove_from_canonical_collection]

/-- Source `expand(value)` as `gatherNodes` applies it to every entry of `result`
inside `terminate`: bare strings become `\x7b id: string \x7d` objects. -/
def expandNode : Node → Node
  | .str s => .obj (Obj.onlyId s)
  | n => n

/-- Source `terminate(act, error)`: appends `new ProcessingError(error.message)`
(via `gatherNodes`, which `expand`s the existing entries) to `result`, saves
the prior `type` in `originalType` — not `formerType` — sets
`type` to the singleton `Tombstone` list and stamps `deleted`.  It stores nothing. -/
def terminate (now e : String) (a : Act) : Act :=
  { a with
    result := some ((gatherRes a.result).map expandNode ++ [Node.perr [e]]),
    originalType := a.type,
    type := some ["Tombstone"],
    deleted := some now }

/-- Source `process(act, raise?)`: unconditionally overwrites `act.id` with
`/outbox/` followed by the random token; runs audit (a no-op), execute, finalize
(stamps `processed`), deliver (a no-op); on a throw, terminates the activity
into a Tombstone and re-raises only when `raise` is set.  The random token
and the clock are explicit parameters. -/
def process (raise : Bool) (token now : String) (a : Act) (s : Store) : HRes :=
  let a0 := { a with id := some ("/outbox/" ++ token) }
  match runHandlers (builtins now) a0 s with
  | (a1, s1, none) => ({ a1 with processed := some now }, s1, none)
  | (a1, s1, some e) => (terminate now e a1, s1, if raise then some e else none)

/-! The submission pipeline. -/

/-- Modelled from the spec: `submit` exists only in the Python part of the repository, whose
sources, which are not included (the TypeScript sources export only
`process`).  Per the spec: validate that `actor` and `type` are present
(raising a `ValidationError` synchronously otherwise, and never enqueuing),
generate an absent `id` as `<actor URI>/outbox/<random token>` — i.e.
`/users/<actor-id>/outbox/<token>` for a `/users/<actor-id>` actor — reject
a caller-supplied `id` outside the scope of the actor instead of correcting it,
stamp `published`, and enqueue.  The random token, the clock and the queue
are explicit parameters; the result is the validation outcome and the queue
afterwards. -/
def submit (token now : String) (a : Act) (q : List Act) :
    Except String Act × List Act :=
  match chainN a.actor with
  | [] => (.error "ValidationError: actor is required", q)
  | actorNode :: _ =>
    if (a.type.getD []).isEmpty then (.error "ValidationError: type is required", q)
    else
      match nodeUri actorNode with
      | none => (.error "ValidationError: actor must have a URI", q)
      | some actorUri =>
        match a.id with
        | none =>
          let a2 := { a with id := some (actorUri ++ "/outbox/" ++ token),
                             published := some now }
          (.ok a2, q ++ [a2])
        | some i =>
          if canWrite i actorUri then
            let a2 := { a with published := some now }
            (.ok a2, q ++ [a2])
          else (.error "ValidationError: id is not scoped under the actor", q)

/-- Is a node a `ProcessingError` instance? -/
def isPerrNode : Node → Bool
  | .perr _ => true
  | _ => false

/-- Number of `ProcessingError` entries in a `result` field. -/
def countErrs (r : Option (List Node)) : Nat :=
  ((r.getD []).filter isPerrNode).length

end Bus

namespace AS

/-- Is the outcome a thrown error? -/
def isErr : Except String Bool → Bool
  | .error _ => true
  | .ok _ => false

/-- A value `chain` yields as-is: neither an array nor `undefined`. -/
def isFlat : JVal → Bool
  | .arr _ => false
  | .undefined => false
  | _ => true

/-- Run `match` over an explicit list of (rule item, activity item) pairs in
order, short-circuiting at the first match and propagating the first throw.
This is the iteration order of `matchLists` made explicit; `anyPair` is
proved equal to it below. -/
def seqAny : List (JVal × JVal) → Except String Bool
  | [] => .ok false
  | (r, a) :: rest =>
    match jmatch r a with
    | .error e => .error e
    | .ok true => .ok true
    | .ok false => seqAny rest

/-- The pair sequence `matchLists` iterates: every chained rule item against
every chained activity item, rule-major order. -/
def pairsSeq (rs ais : List JVal) : List (JVal × JVal) :=
  (chainList rs).flatMap (fun ri => ais.map (fun ai => (ri, ai)))

end AS

namespace Bus

/-- URI of the first actor of an activity, if any. -/
def firstActorUri (a : Act) : Option String :=
  (chainN a.actor).head?.bind nodeUri

end Bus

namespace AS

theorem chainList_eq_flatMap : ∀ xs : List JVal, chainList xs = xs.flatMap chainJ := by
  intro xs
  induction xs with
  | nil => simp [chainList]
  | cons x xs ih => simp [chainList, ih]

theorem chainJ_flat_aux :
    ∀ n : Nat, ∀ v : JVal, sizeOf v ≤ n → ∀ x ∈ chainJ v, isFlat x = true := by
  intro n
  induction n with
  | zero =>
    intro v h
    cases v <;> simp_all
  | succ n ih =>
    intro v h x hx
    cases v with
    | arr xs =>
      rw [chainJ, chainList_eq_flatMap] at hx
      simp only [List.mem_flatMap] at hx
      obtain ⟨y, hy, hxy⟩ := hx
      refine ih y ?_ x hxy
      have := List.sizeOf_lt_of_mem hy
      simp at h
      omega
    | undefined => simp [chainJ] at hx
    | null => simp [chainJ] at hx; simp [hx, isFlat]
    | bool b => simp [chainJ] at hx; simp [hx, isFlat]
    | num m => simp [chainJ] at hx; simp [hx, isFlat]
    | str s => simp [chainJ] at hx; simp [hx, isFlat]
    | obj fs => simp [chainJ] at hx; simp [hx, isFlat]

theorem chainJ_flat (v : JVal) : ∀ x ∈ chainJ v, isFlat x = true :=
  chainJ_flat_aux (sizeOf v) v (Nat.le_refl _)

theorem chainJ_of_flat (v : JVal) (h : isFlat v = true) : chainJ v = [v] := by
  cases v <;> simp_all [isFlat, chainJ]

theorem chainList_of_flat : ∀ l : List JVal, (∀ x ∈ l, isFlat x = true) → chainList l = l := by
  intro l
  induction l with
  | nil => simp [chainList]
  | cons x xs ih =>
    intro h
    rw [chainList, chainJ_of_flat x (h x (by simp)), ih (fun y hy => h y (by simp [hy]))]
    simp

theorem chainList_idem (l : List JVal) : chainList (chainList l) = chainList l := by
  apply chainList_of_flat
  intro x hx
  rw [chainList_eq_flatMap] at hx
  simp only [List.mem_flatMap] at hx
  obtain ⟨y, _, hxy⟩ := hx
  exact chainJ_flat y x hxy

end AS

namespace AS

theorem seqAny_append (xs ys : List (JVal × JVal)) :
    seqAny (xs ++ ys) =
      match seqAny xs with
      | .error e => .error e
      | .ok true => .ok true
      | .ok false => seqAny ys := by
  induction xs with
  | nil => simp [seqAny]
  | cons p rest ih =>
    obtain ⟨r, a⟩ := p
    rw [List.cons_append, seqAny, seqAny]
    cases jmatch r a with
    | error e => rfl
    | ok b => cases b <;> simp [ih]

theorem anyAct_eq_seqAny (r : JVal) :
    ∀ ais : List JVal, anyAct r ais = seqAny (ais.map (fun ai => (r, ai))) := by
  intro ais
  induction ais with
  | nil => rw [anyAct]; rfl
  | cons ai rest ih =>
    rw [List.map_cons, anyAct, seqAny]
    cases jmatch r ai with
    | error e => rfl
    | ok b => cases b <;> simp [ih]

theorem oneTemplate_eq_anyAct (r : JVal) (h1 : ∀ rs, r ≠ .arr rs) (h2 : r ≠ .undefined) :
    ∀ ais, oneTemplate r ais = anyAct r ais := by
  cases r <;> simp_all [oneTemplate]

theorem anyPair_eq_seqAny_aux :
    ∀ n : Nat, ∀ rs : List JVal, sizeOf rs ≤ n →
      ∀ ais : List JVal, anyPair rs ais = seqAny (pairsSeq rs ais) := by
  intro n
  induction n with
  | zero =>
    intro rs h
    cases rs with
    | nil => intro ais; rw [anyPair]; simp [pairsSeq, chainList, seqAny]
    | cons x xs => simp at h
  | succ n ih =>
    intro rs h ais
    cases rs with
    | nil => rw [anyPair]; simp [pairsSeq, chainList, seqAny]
    | cons r rest =>
      have hrest : pairsSeq (r :: rest) ais =
          ((chainJ r).flatMap (fun ri => ais.map (fun ai => (ri, ai)))) ++ pairsSeq rest ais := by
        simp [pairsSeq, chainList]
      have hone : oneTemplate r ais =
          seqAny ((chainJ r).flatMap (fun ri => ais.map (fun ai => (ri, ai)))) := by
        cases r with
        | arr rs2 =>
          rw [oneTemplate, chainJ]
          rw [ih rs2 (by simp at h; omega) ais]
          rfl
        | undefined => rw [oneTemplate]; simp [chainJ, seqAny]
        | null =>
          rw [oneTemplate_eq_anyAct _ (by intro rs hc; cases hc) (by intro hc; cases hc),
            chainJ_of_flat _ (by simp [isFlat]), anyAct_eq_seqAny]
          simp
        | bool b =>
          rw [oneTemplate_eq_anyAct _ (by intro rs hc; cases hc) (by intro hc; cases hc),
            chainJ_of_flat _ (by simp [isFlat]), anyAct_eq_seqAny]
          simp
        | num m =>
          rw [oneTemplate_eq_anyAct _ (by intro rs hc; cases hc) (by intro hc; cases hc),
            chainJ_of_flat _ (by simp [isFlat]), anyAct_eq_seqAny]
          simp
        | str s =>
          rw [oneTemplate_eq_anyAct _ (by intro rs hc; cases hc) (by intro hc; cases hc),
            chainJ_of_flat _ (by simp [isFlat]), anyAct_eq_seqAny]
          simp
        | obj fs =>
          rw [oneTemplate_eq_anyAct _ (by intro rs hc; cases hc) (by intro hc; cases hc),
            chainJ_of_flat _ (by simp [isFlat]), anyAct_eq_seqAny]
          simp
      rw [anyPair, hrest, seqAny_append, hone]
      cases seqAny ((chainJ r).flatMap (fun ri => ais.map (fun ai => (ri, ai)))) with
      | error e => rfl
      | ok b =>
        cases b
        · exact ih rest (by simp at h; omega) ais
        · rfl

theorem anyPair_eq_seqAny (rs ais : List JVal) :
    anyPair rs ais = seqAny (pairsSeq rs ais) :=
  anyPair_eq_seqAny_aux (sizeOf rs) rs (Nat.le_refl _) ais

theorem jmatch_arr_eq_seqAny (rs : List JVal) (av : JVal) :
    jmatch (.arr rs) av = seqAny (pairsSeq rs (chainJ av)) := by
  rw [jmatch]; exact anyPair_eq_seqAny rs (chainJ av)

end AS

namespace AS

theorem seqAny_ok_iff (ps : List (JVal × JVal))
    (h : ∀ p ∈ ps, isErr (jmatch p.1 p.2) = false) :
    seqAny ps = .ok true ↔ ∃ p ∈ ps, jmatch p.1 p.2 = .ok true := by
  induction ps with
  | nil => simp [seqAny]
  | cons p rest ih =>
    obtain ⟨r, a⟩ := p
    rw [seqAny]
    cases hm : jmatch r a with
    | error e =>
      have := h (r, a) (by simp)
      rw [hm] at this
      simp [isErr] at this
    | ok b =>
      cases b with
      | true => simp [hm]
      | false =>
        rw [ih (fun p hp => h p (by simp [hp]))]
        constructor
        · intro ⟨p, hp, hok⟩
          exact ⟨p, by simp [hp], hok⟩
        · intro ⟨p, hp, hok⟩
          rcases List.mem_cons.mp hp with heq | hmem
          · subst heq; rw [hm] at hok; cases hok
          · exact ⟨p, hmem, hok⟩

theorem jGet_ok (av : JVal) (k : String) (h1 : av ≠ .undefined) (h2 : av ≠ .null) :
    jGet av k = .ok (jGetD av k) := by
  cases av <;> simp_all [jGet, jGetD]

theorem allFields_ok_iff (av : JVal) (h1 : av ≠ .undefined) (h2 : av ≠ .null) :
    ∀ fs : List (String × JVal),
      allFields fs av = .ok true ↔ ∀ p ∈ fs, jmatch p.2 (jGetD av p.1) = .ok true := by
  intro fs
  induction fs with
  | nil => rw [allFields]; simp
  | cons p rest ih =>
    obtain ⟨k, v⟩ := p
    rw [allFields, jGet_ok av k h1 h2]
    cases hm : jmatch v (jGetD av k) with
    | error e =>
      simp only [hm]
      constructor
      · intro hc; cases hc
      · intro hall
        have := hall (k, v) (by simp)
        simp only at this
        rw [hm] at this; cases this
    | ok b =>
      cases b with
      | true =>
        simp only [hm]
        rw [ih]
        constructor
        · intro hall p hp
          rcases List.mem_cons.mp hp with heq | hmem
          · subst heq; exact hm
          · exact hall p hmem
        · intro hall p hp
          exact hall p (by simp [hp])
      | false =>
        simp only [hm]
        constructor
        · intro hc; cases hc
        · intro hall
          have := hall (k, v) (by simp)
          simp only at this
          rw [hm] at this; cases this

theorem jmatch_scalar (rv av : JVal) (h : isScalar rv = true) :
    jmatch rv av = .ok (scalarEq rv av) := by
  cases rv <;> simp_all [isScalar, jmatch]

theorem scalarEq_true_iff (rv av : JVal) (h : isScalar rv = true) :
    scalarEq rv av = true ↔ rv = av := by
  cases rv <;> cases av <;> simp_all [isScalar, scalarEq]

theorem mem_pairsSeq (rs ais : List JVal) (p : JVal × JVal) :
    p ∈ pairsSeq rs ais ↔ p.1 ∈ chainList rs ∧ p.2 ∈ ais := by
  obtain ⟨r, a⟩ := p
  simp only [pairsSeq, List.mem_flatMap, List.mem_map, Prod.mk.injEq]
  constructor
  · intro ⟨ri, hri, ai, hai, he1, he2⟩
    subst he1; subst he2; exact ⟨hri, hai⟩
  · intro ⟨hh1, hh2⟩
    exact ⟨r, hh1, a, hh2, rfl, rfl⟩

end AS

namespace AS

theorem lookupField_of_not_hasKey (afs : List (String × JVal)) (k : String)
    (h : hasKey afs k = false) : lookupField afs k = .undefined := by
  rw [lookupField]
  have : List.find? (fun p => p.1 == k) afs = none := by
    rw [List.find?_eq_none]
    intro p hp
    have := (List.any_eq_false.mp h) p hp
    simpa using this
  rw [this]

end AS

/-- Claim C10: `gather` returns the depth-first, left-to-right flattening of
arbitrarily nested arrays, dropping every `undefined`, preserving the order
of the remaining elements; any defined non-array value (including `null`)
yields exactly the singleton of itself; the output is fully flat (so
re-gathering is the identity).  `gather` is a total function of the model,
so it never throws. -/
theorem C10_gather_flattening :
    (∀ args : List AS.JVal, AS.gather args = args.flatMap AS.chainJ)
    ∧ AS.chainJ .undefined = []
    ∧ (AS.chainJ .null = [.null]
       ∧ (∀ b, AS.chainJ (.bool b) = [.bool b])
       ∧ (∀ n, AS.chainJ (.num n) = [.num n])
       ∧ (∀ s, AS.chainJ (.str s) = [.str s])
       ∧ (∀ fs, AS.chainJ (.obj fs) = [.obj fs]))
    ∧ (∀ xs, AS.chainJ (.arr xs) = xs.flatMap AS.chainJ)
    ∧ (∀ v, (AS.chainJ v).all AS.isFlat = true)
    ∧ (∀ args : List AS.JVal, AS.gather (AS.gather args) = AS.gather args) := by
  refine ⟨AS.chainList_eq_flatMap, by simp [AS.chainJ], ⟨?_, ?_, ?_, ?_, ?_⟩, ?_, ?_, ?_⟩
  · simp [AS.chainJ]
  · intro b; simp [AS.chainJ]
  · intro n; simp [AS.chainJ]
  · intro s; simp [AS.chainJ]
  · intro fs; simp [AS.chainJ]
  · intro xs; rw [AS.chainJ]; exact AS.chainList_eq_flatMap xs
  · intro v
    rw [List.all_eq_true]
    exact AS.chainJ_flat v
  · intro args
    exact AS.chainList_idem args

/-- Claim C3, counterexample: the claim says a missing activity field never
makes `matches` throw, but when the template value for the missing field
is a plain object, `matchObjects` reads a property of `undefined` and throws
a `TypeError`: matching the template having `foo: (an object)` against an
activity without `foo` is an error, not `false`. -/
theorem C3_counter :
    AS.isErr (AS.jmatch (.obj [("foo", .obj [("bar", .num 1)])]) (.obj [])) = true := by
  simp [AS.jmatch, AS.allFields, AS.jGet, AS.lookupField, AS.isErr]

/-- Claim C3, amended: if the field named in the template is absent from the
activity, the match returns `false` without throwing when the template
value for that field is a scalar or a list; when it is a non-empty plain
object the matcher throws a `TypeError` instead.  An empty template matches
every activity, and a rule with no `target` is a catch-all that applies to
every activity. -/
theorem C3_amended :
    (∀ (k : String) (v : AS.JVal) (afs : List (String × AS.JVal)),
        AS.hasKey afs k = false → AS.isScalar v = true → v ≠ .undefined →
        AS.jmatch (.obj [(k, v)]) (.obj afs) = .ok false)
    ∧ (∀ (k : String) (rs : List AS.JVal) (afs : List (String × AS.JVal)),
        AS.hasKey afs k = false →
        AS.jmatch (.obj [(k, .arr rs)]) (.obj afs) = .ok false)
    ∧ (∀ (k : String) (f : String × AS.JVal) (fs : List (String × AS.JVal))
          (afs : List (String × AS.JVal)),
        AS.hasKey afs k = false →
        AS.isErr (AS.jmatch (.obj [(k, .obj (f :: fs))]) (.obj afs)) = true)
    ∧ (∀ av : AS.JVal, AS.jmatch (.obj []) av = .ok true)
    ∧ (∀ r : AS.RuleR, r.target = none → ∀ a, AS.ruleMatches r a = .ok true) := by
  refine ⟨?_, ?_, ?_, ?_, ?_⟩
  · intro k v afs hk hs hv
    have hl := AS.lookupField_of_not_hasKey afs k hk
    rw [AS.jmatch, AS.allFields]
    simp only [AS.jGet, hl]
    rw [AS.jmatch_scalar v .undefined hs]
    have : AS.scalarEq v .undefined = false := by
      cases v <;> simp_all [AS.scalarEq, AS.isScalar]
    simp [this]
  · intro k rs afs hk
    have hl := AS.lookupField_of_not_hasKey afs k hk
    rw [AS.jmatch, AS.allFields]
    simp only [AS.jGet, hl]
    rw [AS.jmatch_arr_eq_seqAny]
    have : AS.pairsSeq rs (AS.chainJ .undefined) = [] := by
      simp [AS.pairsSeq, AS.chainJ]
    rw [this]
    simp [AS.seqAny]
  · intro k f fs afs hk
    have hl := AS.lookupField_of_not_hasKey afs k hk
    obtain ⟨k2, v2⟩ := f
    rw [AS.jmatch, AS.allFields]
    simp only [AS.jGet, hl]
    simp [AS.jmatch, AS.allFields, AS.jGet, AS.isErr]
  · intro av
    rw [AS.jmatch, AS.allFields]
  · intro r hr a
    simp [AS.ruleMatches, hr]

/-- Claim C3, witness: concrete instances of the amended claim — a missing
field yields `false` for a scalar template value and for a list template
value, throws for an object template value, the empty template matches a
non-trivial activity, and a rule with no target matches any activity. -/
theorem C3_witness :
    AS.jmatch (.obj [("type", .str "Create")]) (.obj []) = .ok false
    ∧ AS.jmatch (.obj [("type", .arr [.str "Create"])]) (.obj []) = .ok false
    ∧ AS.isErr (AS.jmatch (.obj [("object", .obj [("type", .str "Note")])]) (.obj [])) = true
    ∧ AS.jmatch (.obj []) (.obj [("actor", .str "/users/1")]) = .ok true
    ∧ AS.ruleMatches { target := none } (.obj [("type", .arr [.str "Move"])]) = .ok true :=
  ⟨C3_amended.1 "type" (.str "Create") [] rfl rfl (by simp),
   C3_amended.2.1 "type" [.str "Create"] [] rfl,
   C3_amended.2.2.1 "object" ("type", .str "Note") [] [] rfl,
   C3_amended.2.2.2.1 _,
   C3_amended.2.2.2.2 _ rfl _⟩

/-- Claim C4, counterexample: the claim requires that an object template
value matches only when every key of the template is present in the
activity value, but a template key whose value is `undefined` matches an
activity from which the key is absent (`undefined === undefined`), so
`match` returns `true` although the key is not present. -/
theorem C4_counter :
    AS.jmatch (.obj [("foo", .undefined)]) (.obj []) = .ok true
    ∧ AS.hasKey [] "foo" = false := by
  constructor
  · simp [AS.jmatch, AS.allFields, AS.jGet, AS.lookupField, AS.scalarEq]
  · rfl

/-- Claim C4, amended: a scalar template value matches exactly the equal
value; an object template value matches iff every key of the template
recursively matches the activity value at that key, where an absent key
is read as `undefined` (so presence is not required: an `undefined` template
value matches an absent key, and extra activity keys are ignored); a list
template value matches iff some element of the chain-flattened template list
matches some element of the chain-flattened activity value, provided no
sub-match throws.  (Reading a key of an `undefined`/`null` activity value
throws, hence the provisos.) -/
theorem C4_amended :
    (∀ rv av : AS.JVal, AS.isScalar rv = true →
        (AS.jmatch rv av = .ok true ↔ rv = av))
    ∧ (∀ (fs : List (String × AS.JVal)) (av : AS.JVal),
        av ≠ .undefined → av ≠ .null →
        (AS.jmatch (.obj fs) av = .ok true ↔
          ∀ p ∈ fs, AS.jmatch p.2 (AS.jGetD av p.1) = .ok true))
    ∧ (∀ (rs : List AS.JVal) (av : AS.JVal),
        (∀ ri ∈ AS.chainList rs, ∀ ai ∈ AS.chainJ av,
          AS.isErr (AS.jmatch ri ai) = false) →
        (AS.jmatch (.arr rs) av = .ok true ↔
          ∃ ri ∈ AS.chainList rs, ∃ ai ∈ AS.chainJ av,
            AS.jmatch ri ai = .ok true)) := by
  refine ⟨?_, ?_, ?_⟩
  · intro rv av hs
    rw [AS.jmatch_scalar rv av hs]
    constructor
    · intro h
      have : AS.scalarEq rv av = true := by
        cases h2 : AS.scalarEq rv av
        · simp [h2] at h
        · rfl
      exact (AS.scalarEq_true_iff rv av hs).mp this
    · intro h
      rw [(AS.scalarEq_true_iff rv av hs).mpr h]
  · intro fs av h1 h2
    rw [AS.jmatch]
    exact AS.allFields_ok_iff av h1 h2 fs
  · intro rs av h
    rw [AS.jmatch_arr_eq_seqAny]
    rw [AS.seqAny_ok_iff]
    · constructor
      · intro ⟨p, hp, hok⟩
        have := (AS.mem_pairsSeq rs (AS.chainJ av) p).mp hp
        exact ⟨p.1, this.1, p.2, this.2, hok⟩
      · intro ⟨ri, hri, ai, hai, hok⟩
        exact ⟨(ri, ai), (AS.mem_pairsSeq rs (AS.chainJ av) (ri, ai)).mpr ⟨hri, hai⟩, hok⟩
    · intro p hp
      have := (AS.mem_pairsSeq rs (AS.chainJ av) p).mp hp
      exact h p.1 this.1 p.2 this.2

/-- Claim C4, witness: concrete instances of the amended claim — a scalar
self-match, an object template matched field-wise against a larger activity
object, and a list template matched existentially against a longer activity
list. -/
theorem C4_witness :
    AS.jmatch (.str "Create") (.str "Create") = .ok true
    ∧ AS.jmatch (.obj [("type", .str "Note")])
        (.obj [("type", .str "Note"), ("content", .str "hi")]) = .ok true
    ∧ AS.jmatch (.arr [.str "Create"]) (.arr [.str "Note", .str "Create"]) = .ok true := by
  refine ⟨(C4_amended.1 (.str "Create") (.str "Create") rfl).mpr rfl, ?_, ?_⟩
  · refine (C4_amended.2.1 [("type", .str "Note")] (.obj [("type", .str "Note"), ("content", .str "hi")]) (by simp) (by simp)).mpr ?_
    intro p hp
    simp only [List.mem_singleton] at hp
    subst hp
    simp [AS.jGetD, AS.lookupField, AS.jmatch, AS.scalarEq]
  · refine (C4_amended.2.2 [.str "Create"] (.arr [.str "Note", .str "Create"]) ?_).mpr ?_
    · intro ri hri ai hai
      simp [AS.chainList, AS.chainJ] at hri hai
      subst hri
      rcases hai with h | h <;> subst h <;>
        simp [AS.jmatch, AS.scalarEq, AS.isErr]
    · refine ⟨.str "Create", by simp [AS.chainList, AS.chainJ], .str "Create",
        by simp [AS.chainList, AS.chainJ], ?_⟩
      simp [AS.jmatch, AS.scalarEq]

/-- Claim C2, counterexample: `chainRules` yields matching rules in
registration order — the source `Rule` records carry no priority and no
sorting is performed.  With a priority-20 rule registered before a
priority-10 rule (both catch-alls), the yielded order is 20 before 10,
which violates the claimed priority-ascending dispatch order. -/
theorem C2_counter :
    (AS.chainRules [⟨some "b", some 20, none, none⟩, ⟨some "a", some 10, none, none⟩]
        (.obj [])).toOption.map (fun l => l.map (fun r => (r.priority, r.id)))
      = some [(some 20, some "b"), (some 10, some "a")]
    ∧ AS.orderedBySpec
        [⟨some "b", some 20, none, none⟩, ⟨some "a", some 10, none, none⟩] = false
    ∧ AS.orderedBySpec
        [⟨some "a", some 10, none, none⟩, ⟨some "b", some 20, none, none⟩] = true := by
  refine ⟨rfl, by decide, by decide⟩

/-- Claim C2, amended: whenever `chainRules` completes without a throw, it
yields exactly the rules whose templates match (or that have no target), in
the order of the registered rule list — registration order, deterministic,
with no priority sorting and no identifier tie-break. -/
theorem C2_amended (rules : List AS.RuleR) (a : AS.JVal) (l : List AS.RuleR)
    (h : AS.chainRules rules a = .ok l) :
    l = rules.filter (fun r =>
      match AS.ruleMatches r a with
      | .ok true => true
      | _ => false) := by
  induction rules generalizing l with
  | nil =>
    rw [AS.chainRules] at h
    cases h
    rfl
  | cons r rest ih =>
    rw [AS.chainRules] at h
    cases hm : AS.ruleMatches r a with
    | error e => rw [hm] at h; cases h
    | ok b =>
      rw [hm] at h
      cases hc : AS.chainRules rest a with
      | error e => rw [hc] at h; cases h
      | ok l2 =>
        rw [hc] at h
        cases h
        rw [List.filter_cons]
        cases b with
        | true => simp only [hm, ih l2 hc]
        | false => simp only [hm, ih l2 hc]

/-- Claim C2, witness: a two-rule registry where both catch-all rules are
yielded in registration order, as the amended claim computes. -/
theorem C2_witness :
    [(⟨some "b", some 20, none, none⟩ : AS.RuleR), ⟨some "a", some 10, none, none⟩] =
      ([(⟨some "b", some 20, none, none⟩ : AS.RuleR), ⟨some "a", some 10, none, none⟩].filter
        (fun r =>
          match AS.ruleMatches r (.obj []) with
          | .ok true => true
          | _ => false)) :=
  C2_amended _ (.obj []) _ rfl

namespace Bus

theorem isPrefixOf_iff_exists (p l : List Char) :
    List.isPrefixOf p l = true ↔ ∃ t, l = p ++ t := by
  induction p generalizing l with
  | nil => simp [List.isPrefixOf]
  | cons c cs ih =>
    cases l with
    | nil => simp [List.isPrefixOf]
    | cons d ds =>
      rw [List.isPrefixOf]
      simp only [Bool.and_eq_true, beq_iff_eq, List.cons_append, List.cons.injEq]
      rw [ih ds]
      constructor
      · intro ⟨he, t, ht⟩
        exact ⟨t, he.symm, ht⟩
      · intro ⟨t, he, ht⟩
        exact ⟨he.symm, t, ht⟩

theorem canWrite_append (u rest : String) : canWrite (u ++ "/" ++ rest) u = true := by
  rw [canWrite, isPrefixOf_iff_exists]
  refine ⟨rest.data, ?_⟩
  rw [String.data_append]

theorem canWrite_ne_empty (i u : String) (h : canWrite i u = true) : i ≠ "" := by
  rw [canWrite, isPrefixOf_iff_exists] at h
  obtain ⟨t, ht⟩ := h
  intro he
  subst he
  rw [String.data_append] at ht
  simp at ht

end Bus

/-- Claim C7, counterexample: `canWrite` consults neither `attributedTo` nor
any containment hierarchy or group membership — it is a pure URI-prefix test
on its two string arguments.  With an object stored at `/sys/notes/1` whose
`attributedTo` contains the actor `/users/1`, the claim demands
`canWrite = true`, but the code returns `false` because the object id does
not start with `/users/1/`. -/
theorem C7_counter :
    Bus.lookupStore [("/sys/notes/1",
        .mk (some "/sys/notes/1") (some ["Note"])
          (some [.obj (.mk (some "/users/1") none none none none none)]) none none none)]
        "/sys/notes/1"
      = some (.mk (some "/sys/notes/1") (some ["Note"])
          (some [.obj (.mk (some "/users/1") none none none none none)]) none none none)
    ∧ (Bus.Obj.mk (some "/sys/notes/1") (some ["Note"])
          (some [.obj (.mk (some "/users/1") none none none none none)]) none none
          none).attributedTo
        = some [.obj (.mk (some "/users/1") none none none none none)]
    ∧ Bus.canWrite "/sys/notes/1" "/users/1" = false := by
  refine ⟨rfl, rfl, by decide⟩

/-- Claim C7, amended: `canWrite(objectId, actorId)` returns `true` iff
`objectId` is `actorId` followed by `/` and a (possibly empty) suffix —
`objectId.startsWith` of `actorId` plus a slash.  The `attributedTo` of the object, the
containment hierarchy and group membership play no part (the function never
reads the store at all). -/
theorem C7_amended (objectId actorId : String) :
    Bus.canWrite objectId actorId = true ↔
      ∃ rest : List Char, objectId.data = (actorId ++ "/").data ++ rest :=
  Bus.isPrefixOf_iff_exists (actorId ++ "/").data objectId.data

namespace Bus

theorem create_objects_act (a : Act) (s : Store) :
    (create_objects a s).1.type = a.type ∧ (create_objects a s).1.id = a.id ∧ (create_objects a s).1.formerType = a.formerType := by
  simp only [create_objects]
  split
  · exact ⟨rfl, rfl, rfl⟩
  · split
    · exact ⟨rfl, rfl, rfl⟩
    · split
      · exact ⟨rfl, rfl, rfl⟩
      · split <;> exact ⟨rfl, rfl, rfl⟩

theorem delete_objects_act (now : String) (a : Act) (s : Store) :
    (delete_objects now a s).1.type = a.type ∧ (delete_objects now a s).1.id = a.id ∧ (delete_objects now a s).1.formerType = a.formerType := by
  simp only [delete_objects]
  split
  · exact ⟨rfl, rfl, rfl⟩
  · split
    · exact ⟨rfl, rfl, rfl⟩
    · split <;> exact ⟨rfl, rfl, rfl⟩

theorem appendMarkers_act (name : String) (a : Act) :
    (appendMarkers name a).type = a.type ∧ (appendMarkers name a).id = a.id
    ∧ (appendMarkers name a).formerType = a.formerType :=
  ⟨rfl, rfl, rfl⟩

theorem update_objects_act (a : Act) (s : Store) :
    (update_objects a s).1.type = a.type ∧ (update_objects a s).1.id = a.id ∧ (update_objects a s).1.formerType = a.formerType := by
  rw [update_objects]
  split <;> exact ⟨rfl, rfl, rfl⟩

theorem add_to_collection_act (a : Act) (s : Store) :
    (add_to_collection a s).1.type = a.type ∧ (add_to_collection a s).1.id = a.id ∧ (add_to_collection a s).1.formerType = a.formerType := by
  rw [add_to_collection]
  split <;> exact ⟨rfl, rfl, rfl⟩

theorem remove_from_collection_act (a : Act) (s : Store) :
    (remove_from_collection a s).1.type = a.type ∧ (remove_from_collection a s).1.id = a.id ∧ (remove_from_collection a s).1.formerType = a.formerType := by
  rw [remove_from_collection]
  split <;> exact ⟨rfl, rfl, rfl⟩

theorem move_between_collections_act (a : Act) (s : Store) :
    (move_between_collections a s).1.type = a.type ∧ (move_between_collections a s).1.id = a.id ∧ (move_between_collections a s).1.formerType = a.formerType := by
  rw [move_between_collections]
  split <;> exact ⟨rfl, rfl, rfl⟩

theorem move_or_remove_act (a : Act) (s : Store) :
    (move_or_remove_from_canonical_collection a s).1.type = a.type
    ∧ (move_or_remove_from_canonical_collection a s).1.id = a.id
    ∧ (move_or_remove_from_canonical_collection a s).1.formerType = a.formerType := by
  rw [move_or_remove_from_canonical_collection]
  split <;> exact ⟨rfl, rfl, rfl⟩

theorem runHandlers_act (hs : List (Act → Store → HRes))
    (hp : ∀ h ∈ hs, ∀ a s, (h a s).1.type = a.type ∧ (h a s).1.id = a.id
      ∧ (h a s).1.formerType = a.formerType) :
    ∀ a s, (runHandlers hs a s).1.type = a.type ∧ (runHandlers hs a s).1.id = a.id
      ∧ (runHandlers hs a s).1.formerType = a.formerType := by
  induction hs with
  | nil => intro a s; rw [runHandlers]; exact ⟨rfl, rfl, rfl⟩
  | cons h rest ih =>
    intro a s
    rw [runHandlers]
    have hh := hp h (by simp) a s
    rcases hres : h a s with ⟨a2, s2, e?⟩
    rw [hres] at hh
    cases e? with
    | none =>
      have ih2 := ih (fun h2 hm a3 s3 => hp h2 (by simp [hm]) a3 s3) a2 s2
      exact ⟨ih2.1.trans hh.1, ih2.2.1.trans hh.2.1, ih2.2.2.trans hh.2.2⟩
    | some e =>
      exact ⟨hh.1, hh.2.1, hh.2.2⟩

end Bus

namespace Bus

theorem builtins_act (now : String) :
    ∀ h ∈ builtins now, ∀ a s, (h a s).1.type = a.type ∧ (h a s).1.id = a.id
      ∧ (h a s).1.formerType = a.formerType := by
  intro h hm a s
  simp only [builtins, List.mem_cons, List.not_mem_nil, or_false] at hm
  rcases hm with rfl | rfl | rfl | rfl | rfl | rfl | rfl
  · exact create_objects_act a s
  · exact delete_objects_act now a s
  · exact update_objects_act a s
  · exact add_to_collection_act a s
  · exact remove_from_collection_act a s
  · exact move_between_collections_act a s
  · exact move_or_remove_act a s

theorem countErrs_expand (l : List Node) :
    (List.filter isPerrNode (l.map expandNode)).length = (List.filter isPerrNode l).length := by
  induction l with
  | nil => rfl
  | cons n rest ih =>
    cases n <;> simp [expandNode, isPerrNode, List.filter_cons, ih, Obj.onlyId]

theorem countErrs_terminate (r : Option (List Node)) (e : String) :
    countErrs (some ((gatherRes r).map expandNode ++ [Node.perr [e]])) = countErrs r + 1 := by
  cases r with
  | none => rfl
  | some l =>
    simp only [countErrs, gatherRes, Option.getD_some, List.filter_append]
    rw [List.length_append, countErrs_expand]
    rfl

end Bus

/-- Claim C1, counterexample: on a failing `process` (the actor cannot write
the object), the activity is converted in place with `originalType` — not
`formerType`, which stays unset — recording the prior type; the appended
entry is a bare `ProcessingError` carrying only the error message, with no
reference to the id of the activity; and nothing is persisted: the store stays
empty, so no Tombstone is stored.  This refutes `formerType = prior type`,
the id-referencing error entry, and `persists only that Tombstone`. -/
theorem C1_counter :
    (Bus.process false "tok" "T1"
        { type := some ["Create"],
          actor := some [.obj (.mk (some "/users/1") (some ["Person"]) none none none none)],
          object := some [.obj (.mk (some "/sys/notes/1") (some ["Note"]) none none none none)] }
        []).2.2 = none
    ∧ (Bus.process false "tok" "T1"
        { type := some ["Create"],
          actor := some [.obj (.mk (some "/users/1") (some ["Person"]) none none none none)],
          object := some [.obj (.mk (some "/sys/notes/1") (some ["Note"]) none none none none)] }
        []).1.type = some ["Tombstone"]
    ∧ (Bus.process false "tok" "T1"
        { type := some ["Create"],
          actor := some [.obj (.mk (some "/users/1") (some ["Person"]) none none none none)],
          object := some [.obj (.mk (some "/sys/notes/1") (some ["Note"]) none none none none)] }
        []).1.formerType = none
    ∧ (Bus.process false "tok" "T1"
        { type := some ["Create"],
          actor := some [.obj (.mk (some "/users/1") (some ["Person"]) none none none none)],
          object := some [.obj (.mk (some "/sys/notes/1") (some ["Note"]) none none none none)] }
        []).1.originalType = some ["Create"]
    ∧ (Bus.process false "tok" "T1"
        { type := some ["Create"],
          actor := some [.obj (.mk (some "/users/1") (some ["Person"]) none none none none)],
          object := some [.obj (.mk (some "/sys/notes/1") (some ["Note"]) none none none none)] }
        []).1.result = some [.perr ["/users/1 cannot write to /sys/notes/1"]]
    ∧ (Bus.process false "tok" "T1"
        { type := some ["Create"],
          actor := some [.obj (.mk (some "/users/1") (some ["Person"]) none none none none)],
          object := some [.obj (.mk (some "/sys/notes/1") (some ["Note"]) none none none none)] }
        []).2.1 = ([] : Bus.Store) :=
  ⟨rfl, rfl, rfl, rfl, rfl, rfl⟩

/-- Claim C1, amended: on any failure during `process`, the activity is
converted in place to a Tombstone whose `originalType` (not `formerType`,
which is left untouched) equals the prior type of the activity and whose
`deleted` field is the current timestamp; exactly one `ProcessingError`
entry carrying the error message (not the id of the activity) is appended to
`result`; the store is left exactly as the partially-executed handler chain
left it — in particular the Tombstone itself is not persisted — and nothing
is raised to the caller unless `raise` is set. -/
theorem C1_amended (a : Bus.Act) (s : Bus.Store) (token now : String)
    (a1 : Bus.Act) (s1 : Bus.Store) (e : String)
    (h : Bus.runHandlers (Bus.builtins now) { a with id := some ("/outbox/" ++ token) } s
          = (a1, s1, some e)) :
    (Bus.process false token now a s).2.2 = none
    ∧ (Bus.process false token now a s).2.1 = s1
    ∧ (Bus.process false token now a s).1.type = some ["Tombstone"]
    ∧ (Bus.process false token now a s).1.originalType = a.type
    ∧ (Bus.process false token now a s).1.formerType = a.formerType
    ∧ (Bus.process false token now a s).1.deleted = some now
    ∧ (Bus.process false token now a s).1.result
        = some ((Bus.gatherRes a1.result).map Bus.expandNode ++ [.perr [e]])
    ∧ Bus.countErrs (Bus.process false token now a s).1.result
        = Bus.countErrs a1.result + 1 := by
  have hrun := Bus.runHandlers_act (Bus.builtins now) (Bus.builtins_act now)
    { a with id := some ("/outbox/" ++ token) } s
  rw [h] at hrun
  simp only [Bus.process]
  rw [h]
  refine ⟨rfl, rfl, rfl, hrun.1, hrun.2.2, rfl, rfl, ?_⟩
  exact Bus.countErrs_terminate a1.result e

/-- Claim C1, witness: the amended claim applied to the failing Create of
the test suite (an object outside the writable scope of the actor): exactly one
error entry, Tombstone type, `originalType` preserved, store untouched. -/
theorem C1_witness :
    (Bus.process false "tok" "T1"
        { type := some ["Create"],
          actor := some [.obj (.mk (some "/users/1") none none none none none)],
          object := some [.obj (.mk (some "/sys/notes/1") none none none none none)] }
        []).1.type = some ["Tombstone"]
    ∧ Bus.countErrs (Bus.process false "tok" "T1"
        { type := some ["Create"],
          actor := some [.obj (.mk (some "/users/1") none none none none none)],
          object := some [.obj (.mk (some "/sys/notes/1") none none none none none)] }
        []).1.result = 1 := by
  have h := C1_amended
    { type := some ["Create"],
      actor := some [.obj (.mk (some "/users/1") none none none none none)],
      object := some [.obj (.mk (some "/sys/notes/1") none none none none none)] }
    [] "tok" "T1"
    { id := some "/outbox/tok", type := some ["Create"],
      actor := some [.obj (.mk (some "/users/1") none none none none none)],
      object := some [.obj (.mk (some "/sys/notes/1") none none none none none)] }
    [] "/users/1 cannot write to /sys/notes/1" rfl
  exact ⟨h.2.2.1, by rw [h.2.2.2.2.2.2.2]; rfl⟩

namespace Bus

theorem canWrite_outbox (u tok : String) : canWrite (u ++ "/outbox/" ++ tok) u = true := by
  rw [canWrite, isPrefixOf_iff_exists]
  refine ⟨("outbox/" ++ tok).data, ?_⟩
  have hd : "/outbox/".data = "/".data ++ "outbox/".data := by decide
  simp [String.data_append, hd]

end Bus

/-- Claim C5 (the `submit` pipeline is absent from the TypeScript sources
and is modelled from the spec): `submit` either returns an activity whose
`id` is non-empty and scoped under the URI of the actor, or fails with a
validation error, in which case the queue is unchanged (the activity is
never enqueued); an absent `id` is generated as
`<actor URI>/outbox/<random token>`, and a caller-supplied `id` outside the
scope of the actor is rejected rather than silently corrected. -/
theorem C5_submit :
    (∀ (tok now : String) (a : Bus.Act) (q : List Bus.Act) (a2 : Bus.Act) (q2 : List Bus.Act),
      Bus.submit tok now a q = (.ok a2, q2) →
      ∃ i u, a2.id = some i ∧ i ≠ "" ∧ Bus.firstActorUri a = some u
        ∧ Bus.canWrite i u = true ∧ q2 = q ++ [a2])
    ∧ (∀ (tok now : String) (a : Bus.Act) (q : List Bus.Act) (e : String) (q2 : List Bus.Act),
      Bus.submit tok now a q = (.error e, q2) → q2 = q)
    ∧ (∀ (tok now : String) (a : Bus.Act) (q : List Bus.Act) (u : String),
      a.id = none → Bus.firstActorUri a = some u → (a.type.getD []) ≠ [] →
      Bus.submit tok now a q =
        (.ok { a with id := some (u ++ "/outbox/" ++ tok), published := some now },
         q ++ [{ a with id := some (u ++ "/outbox/" ++ tok), published := some now }]))
    ∧ (∀ (tok now : String) (a : Bus.Act) (q : List Bus.Act) (i u : String),
      a.id = some i → Bus.firstActorUri a = some u → (a.type.getD []) ≠ [] →
      Bus.canWrite i u = false →
      Bus.submit tok now a q =
        (.error "ValidationError: id is not scoped under the actor", q)) := by
  refine ⟨?_, ?_, ?_, ?_⟩
  · intro tok now a q a2 q2 h
    rcases hact : Bus.chainN a.actor with _ | ⟨n, rest⟩ <;>
      simp only [Bus.submit, hact] at h
    · injection h with h1 h2; injection h1
    · split at h
      · injection h with h1 h2; injection h1
      · rcases hn : Bus.nodeUri n with _ | u <;> simp only [hn] at h
        · injection h with h1 h2; injection h1
        · have hfa : Bus.firstActorUri a = some u := by
            simp [Bus.firstActorUri, hact, hn]
          rcases hid : a.id with _ | i <;> simp only [hid] at h
          · injection h with h1 h2
            injection h1 with h3
            subst h3
            subst h2
            refine ⟨u ++ "/outbox/" ++ tok, u, rfl, ?_, hfa,
              Bus.canWrite_outbox u tok, rfl⟩
            exact Bus.canWrite_ne_empty _ _ (Bus.canWrite_outbox u tok)
          · split at h
            · injection h with h1 h2
              injection h1 with h3
              subst h3
              subst h2
              rename_i hcw
              exact ⟨i, u, rfl, Bus.canWrite_ne_empty i u hcw, hfa, hcw, rfl⟩
            · injection h with h1 h2; injection h1
  · intro tok now a q e q2 h
    rcases hact : Bus.chainN a.actor with _ | ⟨n, rest⟩ <;>
      simp only [Bus.submit, hact] at h
    · injection h with h1 h2; exact h2.symm
    · split at h
      · injection h with h1 h2; exact h2.symm
      · rcases hn : Bus.nodeUri n with _ | u <;> simp only [hn] at h
        · injection h with h1 h2; exact h2.symm
        · rcases hid : a.id with _ | i <;> simp only [hid] at h
          · injection h with h1 h2; injection h1
          · split at h
            · injection h with h1 h2; injection h1
            · injection h with h1 h2; exact h2.symm
  · intro tok now a q u hid hu hty
    rcases hact : Bus.chainN a.actor with _ | ⟨n, rest⟩
    · simp [Bus.firstActorUri, hact] at hu
    · have hn : Bus.nodeUri n = some u := by
        simpa [Bus.firstActorUri, hact] using hu
      have hne : (a.type.getD []).isEmpty = false := by
        cases hl : a.type.getD []
        · exact absurd hl hty
        · rfl
      simp only [Bus.submit, hact, hne, hn, hid]
      rfl
  · intro tok now a q i u hid hu hty hcw
    rcases hact : Bus.chainN a.actor with _ | ⟨n, rest⟩
    · simp [Bus.firstActorUri, hact] at hu
    · have hn : Bus.nodeUri n = some u := by
        simpa [Bus.firstActorUri, hact] using hu
      have hne : (a.type.getD []).isEmpty = false := by
        cases hl : a.type.getD []
        · exact absurd hl hty
        · rfl
      simp only [Bus.submit, hact, hne, hn, hid, hcw]
      rfl

/-- Claim C5, witness: submitting a Create without an id under actor
`/users/1` yields the generated scoped id `/users/1/outbox/<token>` and
enqueues exactly the returned activity. -/
theorem C5_witness :
    Bus.submit "tok" "T1"
      { type := some ["Create"], actor := some [.str "/users/1"] } [] =
      (.ok { type := some ["Create"], actor := some [.str "/users/1"],
             id := some "/users/1/outbox/tok", published := some "T1" },
       [{ type := some ["Create"], actor := some [.str "/users/1"],
          id := some "/users/1/outbox/tok", published := some "T1" }]) := by
  have h := C5_submit.2.2.1 "tok" "T1"
    { type := some ["Create"], actor := some [.str "/users/1"] } [] "/users/1"
    rfl rfl (by simp)
  exact h

/-- Claim C6: the code does not enforce the canonical-collection invariant
its own doc comment states.  A `Remove` whose target is the canonical
collection of the object is processed successfully: the handler appends marker
strings to `result` and nothing fails, nothing is rejected, and the store is
untouched; the claim (and the doc comment of the handler, "You cannot move or
remove an object from its canonical collection") says the operation must
always fail. -/
theorem C6_bug :
    (Bus.process false "tok" "T1"
      { type := some ["Remove"],
        actor := some [.obj (.mk (some "/users/1") none none none none none)],
        object := some [.str "/users/1/notes/1"],
        target := some [.str "/users/1/notes"] }
      [("/users/1/notes/1", .mk (some "/users/1/notes/1") (some ["Note"]) none none none none)]).2.2
        = none
    ∧ (Bus.process false "tok" "T1"
      { type := some ["Remove"],
        actor := some [.obj (.mk (some "/users/1") none none none none none)],
        object := some [.str "/users/1/notes/1"],
        target := some [.str "/users/1/notes"] }
      [("/users/1/notes/1", .mk (some "/users/1/notes/1") (some ["Note"]) none none none none)]).1.type
        = some ["Remove"]
    ∧ (Bus.process false "tok" "T1"
      { type := some ["Remove"],
        actor := some [.obj (.mk (some "/users/1") none none none none none)],
        object := some [.str "/users/1/notes/1"],
        target := some [.str "/users/1/notes"] }
      [("/users/1/notes/1", .mk (some "/users/1/notes/1") (some ["Note"]) none none none none)]).1.processed
        = some "T1"
    ∧ (Bus.process false "tok" "T1"
      { type := some ["Remove"],
        actor := some [.obj (.mk (some "/users/1") none none none none none)],
        object := some [.str "/users/1/notes/1"],
        target := some [.str "/users/1/notes"] }
      [("/users/1/notes/1", .mk (some "/users/1/notes/1") (some ["Note"]) none none none none)]).2.1
        = [("/users/1/notes/1", .mk (some "/users/1/notes/1") (some ["Note"]) none none none none)]
    ∧ (Bus.process false "tok" "T1"
      { type := some ["Remove"],
        actor := some [.obj (.mk (some "/users/1") none none none none none)],
        object := some [.str "/users/1/notes/1"],
        target := some [.str "/users/1/notes"] }
      [("/users/1/notes/1", .mk (some "/users/1/notes/1") (some ["Note"]) none none none none)]).1.result
        = some [.str "remove_from_collection", .str "move_or_remove_from_canonical_collection"] :=
  ⟨rfl, rfl, rfl, rfl, rfl⟩

/-- Claim C8: deleting an already-Tombstoned object is a no-op.  If the
store holds the object under its id, its `type` already includes
`Tombstone`, and the actor may write it, then processing the Delete leaves
the store untouched (in particular `formerType` and `deleted` of the stored
object are unchanged), stamps the activity `processed`, and the activity
keeps its `Delete` type — it is not itself Tombstoned. -/
theorem C8_delete_idempotent (aid oid tok now : String) (s : Bus.Store) (ob : Bus.Obj)
    (r : Option (List Bus.Node))
    (hlook : Bus.lookupStore s oid = some ob)
    (hobid : ob.id = some oid)
    (htomb : (Bus.gatherTypes ob.type).contains "Tombstone" = true)
    (hcw : Bus.canWrite oid aid = true) :
    Bus.process false tok now
      { type := some ["Delete"],
        actor := some [.obj (.mk (some aid) none none none none none)],
        object := some [.obj (.mk (some oid) none none none none none)],
        result := r } s
    = ({ type := some ["Delete"],
         actor := some [.obj (.mk (some aid) none none none none none)],
         object := some [.obj (.mk (some oid) none none none none none)],
         result := r,
         id := some ("/outbox/" ++ tok), processed := some now }, s, none) := by
  have hgwo : Bus.gatherWriteableObjects
      [.obj (.mk (some aid) none none none none none)]
      [.obj (.mk (some oid) none none none none none)]
      = .ok [.obj (.mk (some oid) none none none none none)] := by
    simp [Bus.gatherWriteableObjects, Bus.actorsWriteError, Bus.nodeId, Bus.Obj.id, hcw]
  have hderef : Bus.derefNode s (.obj (.mk (some oid) none none none none none)) = some ob := by
    simp [Bus.derefNode, Bus.Obj.id, hlook]
  have hloop : Bus.deleteLoop now [some ob] s = (s, none) := by
    rw [Bus.deleteLoop]
    simp only [Option.some_bind, hobid, hlook]
    rw [if_pos htomb, Bus.deleteLoop]
  have hdel : Bus.delete_objects now
      { type := some ["Delete"],
        actor := some [.obj (.mk (some aid) none none none none none)],
        object := some [.obj (.mk (some oid) none none none none none)],
        result := r, id := some ("/outbox/" ++ tok) } s
      = ({ type := some ["Delete"],
           actor := some [.obj (.mk (some aid) none none none none none)],
           object := some [.obj (.mk (some oid) none none none none none)],
           result := r, id := some ("/outbox/" ++ tok) }, s, none) := by
    simp [Bus.delete_objects, Bus.hasType, Bus.chainN, hgwo, hderef, hloop]
  simp only [Bus.process, Bus.builtins, Bus.runHandlers]
  have hcre : Bus.create_objects
      { type := some ["Delete"],
        actor := some [.obj (.mk (some aid) none none none none none)],
        object := some [.obj (.mk (some oid) none none none none none)],
        result := r, id := some ("/outbox/" ++ tok) } s
      = ({ type := some ["Delete"],
           actor := some [.obj (.mk (some aid) none none none none none)],
           object := some [.obj (.mk (some oid) none none none none none)],
           result := r, id := some ("/outbox/" ++ tok) }, s, none) := rfl
  simp only [hcre]
  simp only [hdel]
  rfl

/-- Claim C8, witness: deleting an object already stored as a Tombstone
(with `formerType = ["Note"]`, `deleted = "T0"`) leaves the store exactly
as it was, stamps the activity processed, and the activity keeps type
`Delete`. -/
theorem C8_witness :
    Bus.process false "tok" "T1"
      { type := some ["Delete"],
        actor := some [.obj (.mk (some "/users/1") none none none none none)],
        object := some [.obj (.mk (some "/users/1/notes/1") none none none none none)],
        result := none }
      [("/users/1/notes/1",
        .mk (some "/users/1/notes/1") (some ["Tombstone"]) none (some ["Note"]) (some "T0") none)]
    = ({ type := some ["Delete"],
         actor := some [.obj (.mk (some "/users/1") none none none none none)],
         object := some [.obj (.mk (some "/users/1/notes/1") none none none none none)],
         result := none,
         id := some ("/outbox/" ++ "tok"), processed := some "T1" },
       [("/users/1/notes/1",
         .mk (some "/users/1/notes/1") (some ["Tombstone"]) none (some ["Note"]) (some "T0") none)],
       none) :=
  C8_delete_idempotent "/users/1" "/users/1/notes/1" "tok" "T1"
    [("/users/1/notes/1",
      .mk (some "/users/1/notes/1") (some ["Tombstone"]) none (some ["Note"]) (some "T0") none)]
    (.mk (some "/users/1/notes/1") (some ["Tombstone"]) none (some ["Note"]) (some "T0") none)
    none rfl rfl (by decide) (by decide)

namespace Bus

theorem withAttributedTo_id (o : Obj) (x : Option (List Node)) :
    (o.withAttributedTo x).id = o.id := by
  cases o; rfl

theorem withAttributedTo_attributedTo (o : Obj) (x : Option (List Node)) :
    (o.withAttributedTo x).attributedTo = x := by
  cases o; rfl

theorem lookupStore_storeSet (k : String) (o : Obj) (s : Store) :
    lookupStore (storeSet k o s) k = some o := by
  simp [lookupStore, storeSet, List.find?]

end Bus

/-- Claim C9 (the write-check/attribution body of `create_objects` is
corrupted in the source and modelled from the spec and the tests): a Create
whose object has an id inside the writable scope of the actor succeeds — the
activity keeps type `Create` and is stamped `processed`, the object is
stored under its id with `attributedTo` set to the actor, and dereferencing
the id returns exactly the stored object. -/
theorem C9_create (aid oid tok now : String) (s : Bus.Store) (o : Bus.Obj)
    (hid : o.id = some oid)
    (hcw : Bus.canWrite oid aid = true) :
    Bus.process false tok now
      { type := some ["Create"],
        actor := some [.obj (.mk (some aid) none none none none none)],
        object := some [.obj o] } s
    = ({ type := some ["Create"],
         actor := some [.obj (.mk (some aid) none none none none none)],
         object := some [.obj (o.withAttributedTo
           (some [.obj (.mk (some aid) none none none none none)]))],
         id := some ("/outbox/" ++ tok), processed := some now },
       Bus.storeSet oid (o.withAttributedTo
         (some [.obj (.mk (some aid) none none none none none)])) s,
       none)
    ∧ Bus.lookupStore
        (Bus.storeSet oid (o.withAttributedTo
          (some [.obj (.mk (some aid) none none none none none)])) s) oid
      = some (o.withAttributedTo (some [.obj (.mk (some aid) none none none none none)]))
    ∧ (o.withAttributedTo
        (some [.obj (.mk (some aid) none none none none none)])).attributedTo
      = some [.obj (.mk (some aid) none none none none none)] := by
  refine ⟨?_, Bus.lookupStore_storeSet oid _ s, Bus.withAttributedTo_attributedTo o _⟩
  have hsto : Bus.storeObjects
      [.obj (o.withAttributedTo (some [.obj (.mk (some aid) none none none none none)]))] s
      = .ok (Bus.storeSet oid
          (o.withAttributedTo (some [.obj (.mk (some aid) none none none none none)])) s) := by
    simp [Bus.storeObjects, Bus.nodeId, Bus.withAttributedTo_id, hid, Bus.insertNode]
  have hall : ([Bus.Node.obj o].all (fun n => (Bus.nodeUri n).isSome)) = true := by
    simp [Bus.nodeUri, hid]
  have howe : Bus.objectsWriteError [.obj (.mk (some aid) none none none none none)]
      [.obj o] = none := by
    simp only [Bus.objectsWriteError, Bus.nodeUri]
    simp only [hid]
    simp only [Bus.actorsWriteError, Bus.nodeId, Bus.Obj.id]
    rw [if_pos hcw]
  have hcre : Bus.create_objects
      { type := some ["Create"],
        actor := some [.obj (.mk (some aid) none none none none none)],
        object := some [.obj o], id := some ("/outbox/" ++ tok) } s
      = ({ type := some ["Create"],
           actor := some [.obj (.mk (some aid) none none none none none)],
           object := some [.obj (o.withAttributedTo
             (some [.obj (.mk (some aid) none none none none none)]))],
           id := some ("/outbox/" ++ tok) },
         Bus.storeSet oid (o.withAttributedTo
           (some [.obj (.mk (some aid) none none none none none)])) s,
         none) := by
    simp [Bus.create_objects, Bus.hasType, Bus.chainN, hall, howe,
      Bus.setAttribution, hsto]
  simp only [Bus.process, Bus.builtins, Bus.runHandlers]
  simp only [hcre]
  rfl

/-- Claim C9, witness: the Create of the test suite — a note stored under
`/users/1/notes/1` by actor `/users/1` — succeeds, keeps type `Create`, and
dereferencing the id returns the note attributed to the actor. -/
theorem C9_witness :
    Bus.lookupStore
      (Bus.process false "tok" "T1"
        { type := some ["Create"],
          actor := some [.obj (.mk (some "/users/1") none none none none none)],
          object := some [.obj (.mk (some "/users/1/notes/1") (some ["Note"])
            none none none (some ["Hello, world!"]))] } []).2.1
      "/users/1/notes/1"
      = some ((Bus.Obj.mk (some "/users/1/notes/1") (some ["Note"])
          none none none (some ["Hello, world!"])).withAttributedTo
          (some [.obj (.mk (some "/users/1") none none none none none)]))
    ∧ (Bus.process false "tok" "T1"
        { type := some ["Create"],
          actor := some [.obj (.mk (some "/users/1") none none none none none)],
          object := some [.obj (.mk (some "/users/1/notes/1") (some ["Note"])
            none none none (some ["Hello, world!"]))] } []).1.type = some ["Create"] := by
  have h := C9_create "/users/1" "/users/1/notes/1" "tok" "T1" []
    (.mk (some "/users/1/notes/1") (some ["Note"]) none none none (some ["Hello, world!"]))
    rfl (by decide)
  exact ⟨by rw [h.1]; exact h.2.1, by rw [h.1]⟩
